import Mathlib

/-!
Verification of the Bolt plugin-library core: embedded-window registry,
mouse-event routing, the window-reposition state machine, pending-input
coalescing, texture region compare/read, shared-memory channel resize,
and window-id issuance.

The embedding follows `src/library/plugin/plugin.h` (struct layouts and
function contracts) and the plugin API header. Function bodies live in
`plugin.c`, which is not part of the available sources; where a body is
missing, the corresponding definition is modelled from the specification
and from the contract stated in the header doc comments, and is marked
`Modelled from the spec:` in its doc comment.
-/

namespace Bolt

/-- MouseEvent: position, modifier-key flags and currently-held-button
flags (spec §3; `struct MouseEvent` from event.h, fields per spec). -/
structure MouseEvent where
  x : Int
  y : Int
  ctrl : Bool
  shift : Bool
  alt : Bool
  meta : Bool
  capslock : Bool
  numlock : Bool
  mb_left : Bool
  mb_right : Bool
  mb_middle : Bool
deriving DecidableEq

/-- The ten input categories of `struct WindowPendingInput`
(plugin.h lines 153-175): motion, leave, three button-down, three
button-up, two scroll directions. -/
inductive InputCategory where
  | motion
  | leave
  | leftDown
  | rightDown
  | middleDown
  | leftUp
  | rightUp
  | middleUp
  | scrollDown
  | scrollUp
deriving DecidableEq

/-- WindowPendingInput (plugin.h lines 153-175): for each category, a
boolean flag plus a stored MouseEvent; the flag/event pair is modelled
as an `Option MouseEvent` (`none` = flag clear). At most one pending
event per category by construction. -/
structure WindowPendingInput where
  mouse_motion : Option MouseEvent
  mouse_leave : Option MouseEvent
  mouse_left : Option MouseEvent
  mouse_right : Option MouseEvent
  mouse_middle : Option MouseEvent
  mouse_left_up : Option MouseEvent
  mouse_right_up : Option MouseEvent
  mouse_middle_up : Option MouseEvent
  mouse_scroll_down : Option MouseEvent
  mouse_scroll_up : Option MouseEvent
deriving DecidableEq

/-- The empty pending-input struct (all flags clear). -/
def WindowPendingInput.empty : WindowPendingInput :=
  ⟨none, none, none, none, none, none, none, none, none, none⟩

/-- Read the slot of one category. -/
def WindowPendingInput.get (p : WindowPendingInput) : InputCategory → Option MouseEvent
  | .motion => p.mouse_motion
  | .leave => p.mouse_leave
  | .leftDown => p.mouse_left
  | .rightDown => p.mouse_right
  | .middleDown => p.mouse_middle
  | .leftUp => p.mouse_left_up
  | .rightUp => p.mouse_right_up
  | .middleUp => p.mouse_middle_up
  | .scrollDown => p.mouse_scroll_down
  | .scrollUp => p.mouse_scroll_up

/-- Deliver an event into a pending-input struct: write it into the
matching category slot, overwriting any not-yet-drained event of that
category (coalescing, spec §4.2 "Delivery means"). This models the
`bool_offset`/`event_offset` store performed by
`_bolt_plugin_handle_mouse_event`. -/
def WindowPendingInput.set (p : WindowPendingInput) (c : InputCategory)
    (e : MouseEvent) : WindowPendingInput :=
  match c with
  | .motion => { p with mouse_motion := some e }
  | .leave => { p with mouse_leave := some e }
  | .leftDown => { p with mouse_left := some e }
  | .rightDown => { p with mouse_right := some e }
  | .middleDown => { p with mouse_middle := some e }
  | .leftUp => { p with mouse_left_up := some e }
  | .rightUp => { p with mouse_right_up := some e }
  | .middleUp => { p with mouse_middle_up := some e }
  | .scrollDown => { p with mouse_scroll_down := some e }
  | .scrollUp => { p with mouse_scroll_up := some e }

/-- EmbeddedWindowMetadata (plugin.h lines 190-195): the authoritative
x, y, width, height of an embedded window. -/
structure EmbeddedWindowMetadata where
  x : Int
  y : Int
  width : Int
  height : Int
deriving DecidableEq

/-- EmbeddedWindow (plugin.h lines 197-228), restricted to the fields
the verified claims depend on: identity, metadata, pending input,
reposition state and the deletion tombstone. Locks, surface functions
and browser-only fields are omitted. `drag_base` is the drag-base rect
recorded at `start_reposition` (spec §4.2: the base the final rect is
compared against and that cancellation reverts to); plugin.h keeps the
base implicitly, the model stores it explicitly. -/
structure EmbeddedWindow where
  id : Nat
  plugin_id : Nat
  metadata : EmbeddedWindowMetadata
  input : WindowPendingInput
  drag_xstart : Int
  drag_ystart : Int
  drag_base : EmbeddedWindowMetadata
  repos_target_x : Int
  repos_target_y : Int
  repos_target_w : Int
  repos_target_h : Int
  reposition_mode : Bool
  reposition_w : Int
  reposition_h : Int
  reposition_threshold : Bool
  is_browser : Bool
  is_deleted : Bool
deriving DecidableEq

/-- WindowInfo (plugin.h lines 230-235): the registry map of embedded
windows (modelled as a list keyed by `id`) plus the distinguished
game-view pending-input slot. `next_id` is the id counter for window
creation. Modelled from the spec: the counter itself lives in plugin.c;
the spec requires ids unique for the process lifetime, never reused and
strictly increasing, which an incrementing counter realises. -/
structure WindowInfo where
  windows : List EmbeddedWindow
  input : WindowPendingInput
  next_id : Nat
deriving DecidableEq

/-- Whether a window's bounds contain a point (hit test, spec §4.2
step 2). A window occupies [x, x+width) × [y, y+height). -/
def EmbeddedWindow.containsPoint (w : EmbeddedWindow) (px py : Int) : Bool :=
  decide (w.metadata.x ≤ px) && decide (px < w.metadata.x + w.metadata.width) &&
  decide (w.metadata.y ≤ py) && decide (py < w.metadata.y + w.metadata.height)

/-- Pick the window with the highest id from a list of hit-test
candidates ("most-recently-created (highest id) wins", spec §4.2). -/
def pickTopmost : List EmbeddedWindow → Option EmbeddedWindow
  | [] => none
  | w :: ws =>
    match pickTopmost ws with
    | none => some w
    | some b => if b.id < w.id then some w else some b

/-- Hit-test all non-deleted windows whose bounds contain the point and
return the topmost (highest-id) one, if any (spec §4.2 step 2). -/
def hitTest (wi : WindowInfo) (px py : Int) : Option EmbeddedWindow :=
  pickTopmost (wi.windows.filter (fun w => !w.is_deleted && w.containsPoint px py))

/-- The window currently holding the drag-grab, if any: the window in
reposition (Dragging) mode. Spec §3 invariant: at most one window is
Dragging at a time, so the first match is the grab owner. -/
def grabbedWindow (wi : WindowInfo) : Option EmbeddedWindow :=
  wi.windows.find? (fun w => w.reposition_mode)

/-- Deliver an event into the pending input of the window with the
given id, leaving every other window unchanged. -/
def deliverToWindow (wi : WindowInfo) (wid : Nat) (c : InputCategory)
    (e : MouseEvent) : WindowInfo :=
  { wi with windows := wi.windows.map (fun w =>
      if w.id = wid then { w with input := w.input.set c e } else w) }

/-- Modelled from the spec: body of `_bolt_plugin_handle_mouse_event`
(declared plugin.h lines 306-309, implemented in plugin.c, not in the
available sources). Routing per spec §4.2: (1) if a drag-grab is
active, deliver unconditionally to the grabbing window, consumed;
(2) otherwise deliver to the topmost non-deleted window containing the
point, consumed; (3) otherwise deliver to the game-view slot, not
consumed. Returns the updated registry and the consumed flag. -/
def _bolt_plugin_handle_mouse_event (wi : WindowInfo) (e : MouseEvent)
    (c : InputCategory) : WindowInfo × Bool :=
  match grabbedWindow wi with
  | some g => (deliverToWindow wi g.id c e, true)
  | none =>
    match hitTest wi e.x e.y with
    | some t => (deliverToWindow wi t.id c e, true)
    | none => ({ wi with input := wi.input.set c e }, false)

/-- Clamp an integer into the interval [lo, hi]. -/
def clampI (lo hi v : Int) : Int := max lo (min hi v)

/-- Sign of an integer as -1, 0 or 1 (the reposition edge selectors
`reposition_w`/`reposition_h` are "negative, positive or 0", plugin.h
lines 213-214). -/
def signI (n : Int) : Int := if n < 0 then -1 else if 0 < n then 1 else 0

/-- One axis of the candidate-rect computation: start `b0` and extent
`blen` of the base rect along the axis, edge-selection sign `s`, pointer
delta `d` along the axis, and game-view extent `glen`. Negative sign
drags the low edge (opposite edge fixed), positive drags the high edge,
zero moves the whole span; the result is clamped into [0, glen]. -/
def candidateSpan (b0 blen s d glen : Int) : Int × Int :=
  if s < 0 then
    (clampI 0 (b0 + blen) (b0 + d), b0 + blen - clampI 0 (b0 + blen) (b0 + d))
  else if 0 < s then
    (b0, clampI b0 glen (b0 + blen + d) - b0)
  else
    (clampI 0 (glen - blen) (b0 + d), blen)

/-- Modelled from the spec: the candidate rect computed on each motion
event while Dragging (spec §4.2 reposition state machine; computed in
plugin.c, not in the available sources). `(dx, dy)` is pointer − anchor,
applied to the edges selected by the signs `sx`, `sy` (both zero = pure
move), then clamped so the window never extends outside the game view
[0, gw] × [0, gh]. -/
def candidateRect (base : EmbeddedWindowMetadata) (sx sy dx dy gw gh : Int) :
    EmbeddedWindowMetadata :=
  let xw := candidateSpan base.x base.width sx dx gw
  let yh := candidateSpan base.y base.height sy dy gh
  ⟨xw.1, yh.1, xw.2, yh.2⟩

/-- Modelled from the spec: `api_window_startreposition` (declared in
the API header; body in plugin.c, not in the available sources).
Idle → Dragging: record the edge signs, the current pointer position as
the drag anchor and the current rect as the drag base; authoritative
metadata is not yet mutated (spec §4.2). -/
def api_window_startreposition (w : EmbeddedWindow) (edge_x edge_y px py : Int) :
    EmbeddedWindow :=
  { w with reposition_mode := true
         , reposition_w := signI edge_x
         , reposition_h := signI edge_y
         , drag_xstart := px
         , drag_ystart := py
         , drag_base := w.metadata
         , repos_target_x := w.metadata.x
         , repos_target_y := w.metadata.y
         , repos_target_w := w.metadata.width
         , repos_target_h := w.metadata.height
         , reposition_threshold := false }

/-- Modelled from the spec: motion handling while Dragging (plugin.c,
not in the available sources). The candidate rect is computed from
(pointer − anchor) on the selected edges, clamped to the game view, and
the authoritative metadata is updated to it directly (spec §4.2). The
minimum-movement threshold is an implementation choice and not a
contract (spec §4.2, §9); the model applies no threshold. -/
def reposition_motion (w : EmbeddedWindow) (px py gw gh : Int) : EmbeddedWindow :=
  if w.reposition_mode then
    let cand := candidateRect w.drag_base w.reposition_w w.reposition_h
        (px - w.drag_xstart) (py - w.drag_ystart) gw gh
    { w with metadata := cand
           , repos_target_x := cand.x
           , repos_target_y := cand.y
           , repos_target_w := cand.width
           , repos_target_h := cand.height
           , reposition_threshold := true }
  else w

/-- The reposition-complete event (spec §6: final x, y, w, h and the
didresize flag; accessors `api_repositionevent_xywh` and
`api_repositionevent_didresize`). -/
structure RepositionEvent where
  x : Int
  y : Int
  width : Int
  height : Int
  didresize : Bool
deriving DecidableEq

/-- Modelled from the spec: Dragging → Idle on button release
(plugin.c, not in the available sources). The final rect is compared to
the drag base; didresize is set iff width or height differ; a
reposition-complete event is always dispatched, even if the final rect
equals the base rect (spec §4.2; API header doc of
`api_window_onreposition`). -/
def reposition_release (w : EmbeddedWindow) : EmbeddedWindow × Option RepositionEvent :=
  if w.reposition_mode then
    let final := w.metadata
    let dr : Bool := !(final.width == w.drag_base.width &&
                       final.height == w.drag_base.height)
    ({ w with reposition_mode := false, reposition_threshold := false },
     some ⟨final.x, final.y, final.width, final.height, dr⟩)
  else (w, none)

/-- Modelled from the spec: `api_window_cancelreposition` (declared in
the API header; body in plugin.c, not in the available sources).
Dragging → Idle on explicit cancellation: the rect is reverted to the
drag base and no event is dispatched (spec §4.2). -/
def api_window_cancelreposition (w : EmbeddedWindow) : EmbeddedWindow × Option RepositionEvent :=
  if w.reposition_mode then
    ({ w with metadata := w.drag_base
            , reposition_mode := false
            , reposition_threshold := false }, none)
  else (w, none)

/-- Modelled from the spec: the pending-input drain performed by
`_bolt_plugin_end_frame` at the frame boundary (plugin.c, not in the
available sources). The slot is swapped for an empty one and at most
one event per category — the stored, i.e. last-delivered, one — is
dispatched (spec §4.1 step 1). Returns the dispatched
(category, event) callbacks. -/
def drainInput (p : WindowPendingInput) : List (InputCategory × MouseEvent) :=
  (p.mouse_motion.toList.map (Prod.mk InputCategory.motion)) ++
  (p.mouse_leave.toList.map (Prod.mk InputCategory.leave)) ++
  (p.mouse_left.toList.map (Prod.mk InputCategory.leftDown)) ++
  (p.mouse_right.toList.map (Prod.mk InputCategory.rightDown)) ++
  (p.mouse_middle.toList.map (Prod.mk InputCategory.middleDown)) ++
  (p.mouse_left_up.toList.map (Prod.mk InputCategory.leftUp)) ++
  (p.mouse_right_up.toList.map (Prod.mk InputCategory.rightUp)) ++
  (p.mouse_middle_up.toList.map (Prod.mk InputCategory.middleUp)) ++
  (p.mouse_scroll_down.toList.map (Prod.mk InputCategory.scrollDown)) ++
  (p.mouse_scroll_up.toList.map (Prod.mk InputCategory.scrollUp))

/-- Modelled from the spec: window creation (`api_createwindow`;
body in plugin.c, not in the available sources). A fresh window takes
the next id from the registry counter, which is then incremented, and
is inserted into the map (spec §4.2 create; §3 id invariants). Returns
the updated registry and the new id. -/
def createWindow (wi : WindowInfo) (pid : Nat) (x y w h : Int) : WindowInfo × Nat :=
  let wid := wi.next_id
  let win : EmbeddedWindow :=
    { id := wid
      plugin_id := pid
      metadata := ⟨x, y, w, h⟩
      input := WindowPendingInput.empty
      drag_xstart := 0
      drag_ystart := 0
      drag_base := ⟨x, y, w, h⟩
      repos_target_x := 0
      repos_target_y := 0
      repos_target_w := 0
      repos_target_h := 0
      reposition_mode := false
      reposition_w := 0
      reposition_h := 0
      reposition_threshold := false
      is_browser := false
      is_deleted := false }
  ({ wi with next_id := wi.next_id + 1, windows := win :: wi.windows }, wid)

/-- Run a sequence of window creations, returning the final registry
and the list of issued ids in creation order. -/
def createMany (wi : WindowInfo) : List (Nat × Int × Int × Int × Int) → WindowInfo × List Nat
  | [] => (wi, [])
  | (pid, x, y, w, h) :: rest =>
    let (wi', wid) := createWindow wi pid x y w h
    let (wi'', ids) := createMany wi' rest
    (wi'', wid :: ids)

/-- Texture atlas: dimensions in pixels plus the RGBA byte store, four
bytes per pixel, rows contiguous (plugin.h `TextureFunctions` doc,
lines 86-108). Bytes are modelled as naturals (values 0-255 in use). -/
structure Texture where
  width : Nat
  height : Nat
  bytes : List Nat
deriving DecidableEq

/-- Byte offset of pixel (x, y): rows are contiguous and pixels are 4
bytes (plugin.h line 105-107). -/
def Texture.offset (t : Texture) (x y : Nat) : Nat := (y * t.width + x) * 4

/-- Read `len` bytes starting at pixel (x, y), the flat-memory view
behind `TextureFunctions.data` (plugin.h lines 105-107). -/
def Texture.readBytes (t : Texture) (x y len : Nat) : List Nat :=
  (t.bytes.drop (t.offset x y)).take len

/-- Overwrite the bytes starting at pixel (x, y) with `data`
(the texture-upload path that places pixel data in the atlas). -/
def Texture.writeBytes (t : Texture) (x y : Nat) (data : List Nat) : Texture :=
  { t with bytes :=
      t.bytes.take (t.offset x y) ++ data ++
      t.bytes.drop (t.offset x y + data.length) }

/-- Whether reading `len` bytes at pixel (x, y) stays inside the
atlas store. -/
def Texture.inBounds (t : Texture) (x y len : Nat) : Bool :=
  decide (x < t.width) && decide (y < t.height) &&
  decide (t.offset x y + len ≤ t.bytes.length)

/-- Modelled from the spec: `api_batch2d_texturecompare` /
`TextureFunctions.compare` (body in plugin.c, not in the available
sources; contract in plugin.h lines 98-103): compares a section of the
texture to the given RGBA bytes using memcmp — true iff the section
matches exactly, byte for byte, no tolerance. -/
def api_batch2d_texturecompare (t : Texture) (x y : Nat) (data : List Nat) : Bool :=
  t.readBytes x y data.length == data

/-- Modelled from the spec: `api_batch2d_texturedata` /
`TextureFunctions.data` (body in plugin.c, not in the available
sources; contract in plugin.h lines 105-107): fetches pixel data at
(x, y) with NO bounds check on x and y, and returns it — through the
Lua error channel `Except`, which it never uses, since the header doc
specifies no checking and the call cannot fail. -/
def api_batch2d_texturedata (t : Texture) (x y len : Nat) : Except String (List Nat) :=
  Except.ok (t.readBytes x y len)

/-- BoltSHM (plugin.h lines 177-188): identity tag + id, the current
mapping length and the mapped bytes. Direction is fixed at creation;
the model carries the outbound flag. -/
structure BoltSHM where
  tag : String
  id : Nat
  map_length : Nat
  file : List Nat
  outbound : Bool
deriving DecidableEq

/-- Modelled from the spec: `_bolt_plugin_shm_open_outbound` (declared
plugin.h line 326; body in plugin.c, not in the available sources).
Creates a named outbound mapping of the given size, zero-filled. -/
def _bolt_plugin_shm_open_outbound (size : Nat) (tag : String) (id : Nat) : BoltSHM :=
  { tag := tag, id := id, map_length := size
    file := List.replicate size 0, outbound := true }

/-- Store bytes into the mapping at an offset (this process has write
permission on an outbound channel). -/
def BoltSHM.write (shm : BoltSHM) (off : Nat) (data : List Nat) : BoltSHM :=
  { shm with file :=
      shm.file.take off ++ data ++ shm.file.drop (off + data.length) }

/-- Modelled from the spec: `_bolt_plugin_shm_resize` (declared plugin.h
lines 332-334; body in plugin.c, not in the available sources).
Reallocates the backing mapping of an outbound channel to the new
length; existing content is preserved up to the old size and the new
region is zero-filled (spec §4.4, §8); the previous identity is
invalidated in favour of `new_id`. -/
def _bolt_plugin_shm_resize (shm : BoltSHM) (length : Nat) (new_id : Nat) : BoltSHM :=
  { shm with map_length := length
           , id := new_id
           , file := shm.file.take length ++
                     List.replicate (length - shm.file.length) 0 }

/-- A window record with the given id and rect and all other fields at
their initial values; used for concrete instances. -/
def mkWindow (wid : Nat) (x y w h : Int) : EmbeddedWindow :=
  { id := wid
    plugin_id := 0
    metadata := ⟨x, y, w, h⟩
    input := WindowPendingInput.empty
    drag_xstart := 0
    drag_ystart := 0
    drag_base := ⟨x, y, w, h⟩
    repos_target_x := 0
    repos_target_y := 0
    repos_target_w := 0
    repos_target_h := 0
    reposition_mode := false
    reposition_w := 0
    reposition_h := 0
    reposition_threshold := false
    is_browser := false
    is_deleted := false }

/-- A mouse event at the given position with no modifiers or buttons. -/
def evAt (x y : Int) : MouseEvent :=
  ⟨x, y, false, false, false, false, false, false, false, false, false⟩

lemma pickTopmost_eq_none {ws : List EmbeddedWindow}
    (h : pickTopmost ws = none) : ws = [] := by
  cases ws with
  | nil => rfl
  | cons a l =>
    cases hl : pickTopmost l with
    | none => simp [pickTopmost, hl] at h
    | some b =>
      simp only [pickTopmost, hl] at h
      split at h <;> simp at h

lemma pickTopmost_spec : ∀ {ws : List EmbeddedWindow} {t : EmbeddedWindow},
    pickTopmost ws = some t → t ∈ ws ∧ ∀ w ∈ ws, w.id ≤ t.id := by
  intro ws
  induction ws with
  | nil => intro t h; simp [pickTopmost] at h
  | cons a l ih =>
    intro t h
    cases hl : pickTopmost l with
    | none =>
      simp only [pickTopmost, hl] at h
      have hat : a = t := by simpa using h
      subst hat
      have hnil : l = [] := pickTopmost_eq_none hl
      subst hnil
      refine ⟨by simp, ?_⟩
      intro w hw
      simp at hw
      simp [hw]
    | some b =>
      obtain ⟨hbmem, hbmax⟩ := ih hl
      simp only [pickTopmost, hl] at h
      by_cases hba : b.id < a.id
      · rw [if_pos hba] at h
        have hat : a = t := by simpa using h
        subst hat
        refine ⟨List.mem_cons_self a l, ?_⟩
        intro w hw
        rcases List.mem_cons.mp hw with rfl | hw
        · exact le_refl _
        · exact le_trans (hbmax w hw) (le_of_lt hba)
      · rw [if_neg hba] at h
        have hbt : b = t := by simpa using h
        subst hbt
        refine ⟨List.mem_cons_of_mem a hbmem, ?_⟩
        intro w hw
        rcases List.mem_cons.mp hw with rfl | hw
        · exact le_of_not_lt hba
        · exact hbmax w hw

lemma find?_map_pres (f : EmbeddedWindow → EmbeddedWindow)
    (p : EmbeddedWindow → Bool) (hp : ∀ w, p (f w) = p w) :
    ∀ l : List EmbeddedWindow, (l.map f).find? p = (l.find? p).map f := by
  intro l
  induction l with
  | nil => rfl
  | cons a l ih =>
    cases h : p a
    · rw [List.map_cons, List.find?_cons_of_neg, List.find?_cons_of_neg, ih]
      · simp [h]
      · simp [hp, h]
    · rw [List.map_cons, List.find?_cons_of_pos, List.find?_cons_of_pos, Option.map_some']
      · simp [h]
      · simp [hp, h]

lemma grabbedWindow_deliverToWindow (wi : WindowInfo) (wid : Nat)
    (c : InputCategory) (e : MouseEvent) :
    grabbedWindow (deliverToWindow wi wid c e) =
      (grabbedWindow wi).map
        (fun w => if w.id = wid then { w with input := w.input.set c e } else w) := by
  unfold grabbedWindow deliverToWindow
  apply find?_map_pres
  intro w
  by_cases h : w.id = wid <;> simp [h]

/-- C1: with no drag-grab active, a routed mouse event is delivered to
the topmost (highest-id) non-deleted window whose bounds contain the
point and reported consumed; if no window contains the point it is
delivered to the game-view pending-input slot and reported NOT
consumed; and the hit-test succeeds whenever at least one non-deleted
window contains the point. -/
theorem handle_mouse_event_no_grab (wi : WindowInfo) (e : MouseEvent)
    (c : InputCategory) (hng : grabbedWindow wi = none) :
    (∀ t, hitTest wi e.x e.y = some t →
        t ∈ wi.windows ∧ t.is_deleted = false ∧
        t.containsPoint e.x e.y = true ∧
        (∀ w ∈ wi.windows, w.is_deleted = false → w.containsPoint e.x e.y = true →
          w.id ≤ t.id) ∧
        _bolt_plugin_handle_mouse_event wi e c = (deliverToWindow wi t.id c e, true)) ∧
    (hitTest wi e.x e.y = none →
        _bolt_plugin_handle_mouse_event wi e c =
          ({ wi with input := wi.input.set c e }, false)) ∧
    ((∃ w ∈ wi.windows, w.is_deleted = false ∧ w.containsPoint e.x e.y = true) →
        ∃ t, hitTest wi e.x e.y = some t) := by
  refine ⟨?_, ?_, ?_⟩
  · intro t ht
    obtain ⟨hmem, hmax⟩ := pickTopmost_spec ht
    have hmem' := List.mem_filter.mp hmem
    have hcond := hmem'.2
    rw [Bool.and_eq_true, Bool.not_eq_true'] at hcond
    refine ⟨hmem'.1, hcond.1, hcond.2, ?_, ?_⟩
    · intro w hw hdel hcont
      exact hmax w (List.mem_filter.mpr ⟨hw, by simp [hdel, hcont]⟩)
    · simp [_bolt_plugin_handle_mouse_event, hng, ht]
  · intro ht
    simp [_bolt_plugin_handle_mouse_event, hng, ht]
  · rintro ⟨w, hw, hdel, hcont⟩
    cases ht : hitTest wi e.x e.y with
    | some t => exact ⟨t, rfl⟩
    | none =>
      have hnil := pickTopmost_eq_none ht
      have : w ∈ wi.windows.filter
          (fun w => !w.is_deleted && w.containsPoint e.x e.y) :=
        List.mem_filter.mpr ⟨hw, by simp [hdel, hcont]⟩
      rw [hnil] at this
      exact absurd this (List.not_mem_nil w)

/-- Concrete registry for the C1 witness: two overlapping windows, the
second-created (id 2) on top, no grab active. -/
def wiOverlap : WindowInfo :=
  ⟨[mkWindow 1 0 0 50 50, mkWindow 2 0 0 50 50], WindowPendingInput.empty, 3⟩

/-- Witness for C1: at point (10, 10), covered by both windows of
`wiOverlap`, the event is delivered to window 2 and consumed. -/
theorem handle_mouse_event_no_grab_witness :
    grabbedWindow wiOverlap = none ∧
    _bolt_plugin_handle_mouse_event wiOverlap (evAt 10 10) InputCategory.motion =
      (deliverToWindow wiOverlap 2 InputCategory.motion (evAt 10 10), true) := by
  refine ⟨by decide, ?_⟩
  have h := (handle_mouse_event_no_grab wiOverlap (evAt 10 10) InputCategory.motion
    (by decide)).1 (mkWindow 2 0 0 50 50) (by decide)
  exact h.2.2.2.2

/-- C2: while a drag-grab is active, every routed mouse event is
delivered to the grabbing window regardless of pointer position and
reported consumed, and routing itself leaves the grab in place (the
grab ends only through release or explicit cancellation). -/
theorem handle_mouse_event_grab (wi : WindowInfo) (e : MouseEvent)
    (c : InputCategory) (g : EmbeddedWindow)
    (hg : grabbedWindow wi = some g) :
    _bolt_plugin_handle_mouse_event wi e c = (deliverToWindow wi g.id c e, true) ∧
    ∃ g', grabbedWindow (_bolt_plugin_handle_mouse_event wi e c).1 = some g' ∧
      g'.id = g.id ∧ g'.reposition_mode = true := by
  have hroute : _bolt_plugin_handle_mouse_event wi e c =
      (deliverToWindow wi g.id c e, true) := by
    simp [_bolt_plugin_handle_mouse_event, hg]
  refine ⟨hroute, ?_⟩
  have hmode : g.reposition_mode = true := List.find?_some hg
  refine ⟨{ g with input := g.input.set c e }, ?_, rfl, hmode⟩
  rw [hroute]
  simp only [grabbedWindow_deliverToWindow, hg, Option.map_some', if_pos rfl]
  rw [show (grabbedWindow wi) = wi.windows.find? (fun w => w.reposition_mode) from rfl] at hg
  simp

/-- The grabbing window for the C2 witness: id 2, positioned away from
the probe point, in reposition (Dragging) mode. -/
def grabWin : EmbeddedWindow :=
  { mkWindow 2 100 100 50 50 with reposition_mode := true }

/-- Concrete registry for the C2 witness: window 1 covers the probe
point but window 2 holds the grab. -/
def wiGrab : WindowInfo :=
  ⟨[mkWindow 1 0 0 50 50, grabWin], WindowPendingInput.empty, 3⟩

/-- Witness for C2: the event at (10, 10) — inside window 1 and outside
window 2's bounds — is delivered to grabbing window 2 and consumed. -/
theorem handle_mouse_event_grab_witness :
    grabbedWindow wiGrab = some grabWin ∧
    _bolt_plugin_handle_mouse_event wiGrab (evAt 10 10) InputCategory.motion =
      (deliverToWindow wiGrab 2 InputCategory.motion (evAt 10 10), true) :=
  ⟨by decide, (handle_mouse_event_grab wiGrab (evAt 10 10) InputCategory.motion
      grabWin (by decide)).1⟩

lemma le_clampI (lo hi v : Int) : lo ≤ clampI lo hi v := le_max_left _ _

lemma clampI_le {lo hi : Int} (h : lo ≤ hi) (v : Int) : clampI lo hi v ≤ hi :=
  max_le h (min_le_left _ _)

lemma clampI_eq {lo hi v : Int} (h1 : lo ≤ v) (h2 : v ≤ hi) : clampI lo hi v = v := by
  unfold clampI
  rw [min_eq_right h2, max_eq_right h1]

lemma candidateSpan_bounds {b0 blen glen : Int} (s d : Int)
    (h0 : 0 ≤ b0) (hlen : 0 ≤ blen) (hg : b0 + blen ≤ glen) :
    0 ≤ (candidateSpan b0 blen s d glen).1 ∧
    0 ≤ (candidateSpan b0 blen s d glen).2 ∧
    (candidateSpan b0 blen s d glen).1 + (candidateSpan b0 blen s d glen).2 ≤ glen := by
  unfold candidateSpan
  split_ifs with h1 h2
  · have l1 := le_clampI 0 (b0 + blen) (b0 + d)
    have l2 := clampI_le (show (0:Int) ≤ b0 + blen by omega) (b0 + d)
    refine ⟨l1, by omega, by omega⟩
  · have l1 := le_clampI b0 glen (b0 + blen + d)
    have l2 := clampI_le (show b0 ≤ glen by omega) (b0 + blen + d)
    refine ⟨h0, by omega, by omega⟩
  · have l1 := le_clampI 0 (glen - blen) (b0 + d)
    have l2 := clampI_le (show (0:Int) ≤ glen - blen by omega) (b0 + d)
    refine ⟨l1, hlen, by omega⟩

lemma candidateSpan_move {b0 blen d glen : Int} (h1 : 0 ≤ b0 + d)
    (h2 : b0 + d + blen ≤ glen) :
    candidateSpan b0 blen 0 d glen = (b0 + d, blen) := by
  unfold candidateSpan
  rw [if_neg (by omega), if_neg (by omega), clampI_eq h1 (by omega)]

lemma candidateSpan_neg {b0 blen d glen : Int} (s : Int) (hs : s < 0)
    (h1 : 0 ≤ b0 + d) (h2 : b0 + d ≤ b0 + blen) :
    candidateSpan b0 blen s d glen = (b0 + d, blen - d) := by
  unfold candidateSpan
  rw [if_pos hs, clampI_eq h1 h2]
  simp only [Prod.mk.injEq, true_and]
  omega

lemma reposition_motion_pres (w : EmbeddedWindow) (px py gw gh : Int) :
    (reposition_motion w px py gw gh).drag_base = w.drag_base ∧
    (reposition_motion w px py gw gh).reposition_mode = w.reposition_mode := by
  unfold reposition_motion
  split <;> simp_all

lemma start_motion_metadata (w : EmbeddedWindow) (ex ey ax ay px py gw gh : Int) :
    (reposition_motion (api_window_startreposition w ex ey ax ay) px py gw gh).metadata =
      candidateRect w.metadata (signI ex) (signI ey) (px - ax) (py - ay) gw gh ∧
    (reposition_motion (api_window_startreposition w ex ey ax ay) px py gw gh).drag_base =
      w.metadata ∧
    (reposition_motion (api_window_startreposition w ex ey ax ay) px py gw gh).reposition_mode =
      true := by
  refine ⟨?_, ?_, ?_⟩ <;> simp [api_window_startreposition, reposition_motion]

lemma release_of_dragging (w : EmbeddedWindow) (h : w.reposition_mode = true) :
    reposition_release w =
      ({ w with reposition_mode := false, reposition_threshold := false },
       some ⟨w.metadata.x, w.metadata.y, w.metadata.width, w.metadata.height,
         !(w.metadata.width == w.drag_base.width &&
           w.metadata.height == w.drag_base.height)⟩) := by
  simp [reposition_release, h]

/-- C3: while Dragging, each motion event installs the candidate rect
computed from (pointer − anchor) applied to the selected edges; the
candidate is clamped inside the game view; `start_reposition(0,0)` with
a pointer delta of (dx, dy) then release commits a rect offset by
exactly (dx, dy) with didresize = false; `start_reposition(-1,0)` with
a delta of (dx, 0) changes x by dx and width by −dx with
didresize = true iff dx ≠ 0. -/
theorem reposition_drag_candidate :
    (∀ (w : EmbeddedWindow) (px py gw gh : Int), w.reposition_mode = true →
        (reposition_motion w px py gw gh).metadata =
          candidateRect w.drag_base w.reposition_w w.reposition_h
            (px - w.drag_xstart) (py - w.drag_ystart) gw gh) ∧
    (∀ (base : EmbeddedWindowMetadata) (sx sy dx dy gw gh : Int),
        0 ≤ base.x → 0 ≤ base.y → 0 ≤ base.width → 0 ≤ base.height →
        base.x + base.width ≤ gw → base.y + base.height ≤ gh →
        0 ≤ (candidateRect base sx sy dx dy gw gh).x ∧
        0 ≤ (candidateRect base sx sy dx dy gw gh).y ∧
        (candidateRect base sx sy dx dy gw gh).x +
          (candidateRect base sx sy dx dy gw gh).width ≤ gw ∧
        (candidateRect base sx sy dx dy gw gh).y +
          (candidateRect base sx sy dx dy gw gh).height ≤ gh) ∧
    (∀ (w : EmbeddedWindow) (ax ay dx dy gw gh : Int), w.reposition_mode = false →
        0 ≤ w.metadata.x + dx → w.metadata.x + dx + w.metadata.width ≤ gw →
        0 ≤ w.metadata.y + dy → w.metadata.y + dy + w.metadata.height ≤ gh →
        (reposition_release (reposition_motion
            (api_window_startreposition w 0 0 ax ay) (ax + dx) (ay + dy) gw gh)).2 =
          some ⟨w.metadata.x + dx, w.metadata.y + dy,
                w.metadata.width, w.metadata.height, false⟩) ∧
    (∀ (w : EmbeddedWindow) (ax ay dx gw gh : Int), w.reposition_mode = false →
        0 ≤ w.metadata.x + dx → w.metadata.x + dx ≤ w.metadata.x + w.metadata.width →
        0 ≤ w.metadata.y → w.metadata.y + w.metadata.height ≤ gh →
        ∃ ev, (reposition_release (reposition_motion
            (api_window_startreposition w (-1) 0 ax ay) (ax + dx) ay gw gh)).2 = some ev ∧
          ev.x = w.metadata.x + dx ∧ ev.y = w.metadata.y ∧
          ev.width = w.metadata.width - dx ∧ ev.height = w.metadata.height ∧
          (ev.didresize = true ↔ dx ≠ 0)) := by
  refine ⟨?_, ?_, ?_, ?_⟩
  · intro w px py gw gh h
    simp [reposition_motion, h]
  · intro base sx sy dx dy gw gh hx hy hw hh hgw hgh
    obtain ⟨a1, a2, a3⟩ := candidateSpan_bounds sx dx hx hw hgw
    obtain ⟨b1, b2, b3⟩ := candidateSpan_bounds sy dy hy hh hgh
    exact ⟨a1, b1, a3, b3⟩
  · intro w ax ay dx dy gw gh hmode h1 h2 h3 h4
    obtain ⟨hmeta, hbase, hm2⟩ := start_motion_metadata w 0 0 ax ay (ax + dx) (ay + dy) gw gh
    rw [release_of_dragging _ hm2, hbase]
    have hdx : ax + dx - ax = dx := by ring
    have hdy : ay + dy - ay = dy := by ring
    rw [hdx, hdy] at hmeta
    have hcx : candidateSpan w.metadata.x w.metadata.width 0 dx gw =
        (w.metadata.x + dx, w.metadata.width) := candidateSpan_move h1 h2
    have hcy : candidateSpan w.metadata.y w.metadata.height 0 dy gh =
        (w.metadata.y + dy, w.metadata.height) := candidateSpan_move h3 h4
    have hc : candidateRect w.metadata (signI 0) (signI 0) dx dy gw gh =
        ⟨w.metadata.x + dx, w.metadata.y + dy, w.metadata.width, w.metadata.height⟩ := by
      unfold candidateRect
      rw [show signI 0 = 0 from rfl, hcx, hcy]
    rw [hc] at hmeta
    rw [hmeta]
    simp
  · intro w ax ay dx gw gh hmode h1 h2 h3 h4
    obtain ⟨hmeta, hbase, hm2⟩ := start_motion_metadata w (-1) 0 ax ay (ax + dx) ay gw gh
    have hdx : ax + dx - ax = dx := by ring
    have hdy : ay - ay = (0 : Int) := by ring
    rw [hdx, hdy] at hmeta
    have hcx : candidateSpan w.metadata.x w.metadata.width (-1) dx gw =
        (w.metadata.x + dx, w.metadata.width - dx) :=
      candidateSpan_neg (-1) (by norm_num) h1 h2
    have hcy : candidateSpan w.metadata.y w.metadata.height 0 0 gh =
        (w.metadata.y + 0, w.metadata.height) := candidateSpan_move (by omega) (by omega)
    have hc : candidateRect w.metadata (signI (-1)) (signI 0) dx 0 gw gh =
        ⟨w.metadata.x + dx, w.metadata.y, w.metadata.width - dx, w.metadata.height⟩ := by
      unfold candidateRect
      rw [show signI (-1) = -1 by decide, show signI 0 = 0 from rfl, hcx, hcy]
      simp
    rw [hc] at hmeta
    refine ⟨⟨w.metadata.x + dx, w.metadata.y, w.metadata.width - dx, w.metadata.height,
      !(w.metadata.width - dx == w.metadata.width &&
        w.metadata.height == w.metadata.height)⟩, ?_, rfl, rfl, rfl, rfl, ?_⟩
    · rw [release_of_dragging _ hm2, hbase, hmeta]
    · simp only [beq_self_eq_true, Bool.and_true, Bool.not_eq_eq_eq_not, Bool.not_true,
        beq_eq_false_iff_ne, ne_eq]
      constructor
      · intro hne hdz
        exact hne (by omega)
      · intro hdz hne
        exact hdz (by omega)

/-- Witness for C3: window at (10, 10) size 100×100 in a 500×500 game
view; a pure move drag with delta (5, 7) commits rect (15, 17, 100,
100) with didresize = false. -/
theorem reposition_drag_candidate_witness :
    (mkWindow 1 10 10 100 100).reposition_mode = false ∧
    (reposition_release (reposition_motion
        (api_window_startreposition (mkWindow 1 10 10 100 100) 0 0 200 200)
        (200 + 5) (200 + 7) 500 500)).2 = some ⟨15, 17, 100, 100, false⟩ := by
  refine ⟨by decide, ?_⟩
  have h := (reposition_drag_candidate).2.2.1 (mkWindow 1 10 10 100 100)
    200 200 5 7 500 500 (by decide) (by decide) (by decide) (by decide) (by decide)
  exact h

/-- C4: Dragging → Idle on button release always dispatches exactly one
reposition-complete event carrying the final rect, even when it equals
the drag base, and its didresize flag is true iff final width or height
differs from the base rect's. -/
theorem reposition_release_dispatches (w : EmbeddedWindow)
    (h : w.reposition_mode = true) :
    (reposition_release w).1.reposition_mode = false ∧
    ∃ ev, (reposition_release w).2 = some ev ∧
      ev.x = w.metadata.x ∧ ev.y = w.metadata.y ∧
      ev.width = w.metadata.width ∧ ev.height = w.metadata.height ∧
      (ev.didresize = true ↔
        (w.metadata.width ≠ w.drag_base.width ∨
         w.metadata.height ≠ w.drag_base.height)) := by
  rw [release_of_dragging w h]
  refine ⟨rfl, ⟨_, rfl, rfl, rfl, rfl, rfl, ?_⟩⟩
  simp only [Bool.not_eq_eq_eq_not, Bool.not_true, Bool.and_eq_false_iff,
    beq_eq_false_iff_ne, ne_eq]

/-- A window in Dragging mode whose current rect equals its drag base,
for the C4 witness. -/
def wRel : EmbeddedWindow := { mkWindow 3 0 0 50 50 with reposition_mode := true }

/-- Witness for C4: releasing `wRel`, whose final rect equals the base
rect, still dispatches exactly one event, with didresize = false. -/
theorem reposition_release_dispatches_witness :
    wRel.reposition_mode = true ∧
    (reposition_release wRel).1.reposition_mode = false ∧
    (reposition_release wRel).2 = some ⟨0, 0, 50, 50, false⟩ :=
  ⟨by decide, (reposition_release_dispatches wRel (by decide)).1, by decide⟩

lemma foldl_motion_pres (gw gh : Int) :
    ∀ (ms : List (Int × Int)) (w : EmbeddedWindow),
      (ms.foldl (fun acc m => reposition_motion acc m.1 m.2 gw gh) w).drag_base =
        w.drag_base ∧
      (ms.foldl (fun acc m => reposition_motion acc m.1 m.2 gw gh) w).reposition_mode =
        w.reposition_mode
  | [], _ => ⟨rfl, rfl⟩
  | m :: ms, w => by
    simp only [List.foldl_cons]
    obtain ⟨h1, h2⟩ := foldl_motion_pres gw gh ms (reposition_motion w m.1 m.2 gw gh)
    obtain ⟨g1, g2⟩ := reposition_motion_pres w m.1 m.2 gw gh
    exact ⟨h1.trans g1, h2.trans g2⟩

/-- C5: explicit cancellation of a drag reverts the authoritative
metadata rect to the drag-base rect and dispatches no reposition event;
in particular, after `start_reposition` and any sequence of motion
events, cancelling restores exactly the rect the window had before the
drag. -/
theorem cancelreposition_reverts :
    (∀ w : EmbeddedWindow, w.reposition_mode = true →
        api_window_cancelreposition w =
          ({ w with metadata := w.drag_base, reposition_mode := false,
                    reposition_threshold := false }, none)) ∧
    (∀ (w : EmbeddedWindow) (edge_x edge_y ax ay gw gh : Int)
        (motions : List (Int × Int)),
        (api_window_cancelreposition (motions.foldl
            (fun acc m => reposition_motion acc m.1 m.2 gw gh)
            (api_window_startreposition w edge_x edge_y ax ay))).2 = none ∧
        (api_window_cancelreposition (motions.foldl
            (fun acc m => reposition_motion acc m.1 m.2 gw gh)
            (api_window_startreposition w edge_x edge_y ax ay))).1.metadata =
          w.metadata) := by
  have hcancel : ∀ w : EmbeddedWindow, w.reposition_mode = true →
      api_window_cancelreposition w =
        ({ w with metadata := w.drag_base, reposition_mode := false,
                  reposition_threshold := false }, none) := by
    intro w h
    simp [api_window_cancelreposition, h]
  refine ⟨hcancel, ?_⟩
  intro w edge_x edge_y ax ay gw gh motions
  obtain ⟨hbase, hmode⟩ := foldl_motion_pres gw gh motions
    (api_window_startreposition w edge_x edge_y ax ay)
  have hb : (api_window_startreposition w edge_x edge_y ax ay).drag_base =
      w.metadata := rfl
  have hm : (api_window_startreposition w edge_x edge_y ax ay).reposition_mode =
      true := rfl
  rw [hb] at hbase
  rw [hm] at hmode
  rw [hcancel _ hmode]
  exact ⟨rfl, hbase⟩

/-- A mid-drag window for the C5 witness: its metadata tracks the drag
candidate (9, 9, 40, 40) while the drag base is (5, 5, 40, 40). -/
def wDrag : EmbeddedWindow :=
  { mkWindow 4 5 5 40 40 with reposition_mode := true,
                              metadata := ⟨9, 9, 40, 40⟩,
                              drag_base := ⟨5, 5, 40, 40⟩ }

/-- Witness for C5: cancelling `wDrag` reverts its rect to the base
(5, 5, 40, 40) and dispatches no event. -/
theorem cancelreposition_reverts_witness :
    wDrag.reposition_mode = true ∧
    api_window_cancelreposition wDrag =
      ({ wDrag with metadata := ⟨5, 5, 40, 40⟩, reposition_mode := false,
                    reposition_threshold := false }, none) :=
  ⟨by decide, (cancelreposition_reverts).1 wDrag (by decide)⟩

lemma filter_catPart (c c' : InputCategory) (o : Option MouseEvent) :
    (o.toList.map (Prod.mk c)).filter (fun pr => pr.1 == c') =
      if c = c' then o.toList.map (Prod.mk c) else [] := by
  cases o <;> by_cases h : c = c' <;> simp [h]

lemma drain_cat (p : WindowPendingInput) (c : InputCategory) :
    (drainInput p).filter (fun pr => pr.1 == c) =
      (p.get c).toList.map (Prod.mk c) := by
  cases c <;>
    simp [drainInput, WindowPendingInput.get, List.filter_append, filter_catPart]

/-- C6: pending input is coalesced per category — delivery overwrites
the stored event of the same category, at most one event per category
survives to the frame boundary, and delivering three motion events
before the drain yields exactly one motion callback carrying the third
event's data. -/
theorem pending_input_coalesces :
    (∀ (p : WindowPendingInput) (c : InputCategory) (e : MouseEvent),
        (p.set c e).get c = some e) ∧
    (∀ (p : WindowPendingInput) (c : InputCategory),
        ((drainInput p).filter (fun pr => pr.1 == c)).length ≤ 1) ∧
    (∀ (p : WindowPendingInput) (e1 e2 e3 : MouseEvent),
        (((p.set .motion e1).set .motion e2).set .motion e3).mouse_motion = some e3 ∧
        (drainInput (((p.set .motion e1).set .motion e2).set .motion e3)).filter
            (fun pr => pr.1 == InputCategory.motion) =
          [(InputCategory.motion, e3)]) := by
  refine ⟨?_, ?_, ?_⟩
  · intro p c e
    cases c <;> rfl
  · intro p c
    rw [drain_cat]
    cases p.get c <;> simp
  · intro p e1 e2 e3
    refine ⟨rfl, ?_⟩
    rw [drain_cat]
    rfl

lemma read_mid (l₁ l₂ l₃ : List Nat) :
    ((l₁ ++ l₂ ++ l₃).drop l₁.length).take l₂.length = l₂ := by
  rw [List.append_assoc, List.drop_left, List.take_left]

lemma readBytes_writeBytes (t : Texture) (x y : Nat) (data : List Nat)
    (h : t.offset x y + data.length ≤ t.bytes.length) :
    (t.writeBytes x y data).readBytes x y data.length = data := by
  have h1 : (t.bytes.take (t.offset x y)).length = t.offset x y := by
    rw [List.length_take]
    omega
  have h2 := read_mid (t.bytes.take (t.offset x y)) data
    (t.bytes.drop (t.offset x y + data.length))
  rw [h1] at h2
  simpa [Texture.writeBytes, Texture.readBytes, Texture.offset] using h2

/-- C7: texture region compare is exact byte equality — it returns true
iff the given bytes equal the texture bytes at the given coordinates;
writing a block and comparing it back returns true; and flipping any
single byte of the comparison buffer makes it return false. -/
theorem texturecompare_exact (t : Texture) (x y : Nat) (data : List Nat)
    (hlen : t.offset x y + data.length ≤ t.bytes.length) :
    (∀ probe : List Nat, api_batch2d_texturecompare t x y probe = true ↔
        t.readBytes x y probe.length = probe) ∧
    api_batch2d_texturecompare (t.writeBytes x y data) x y data = true ∧
    (∀ (i b : Nat) (hi : i < data.length), b ≠ data[i] →
        api_batch2d_texturecompare (t.writeBytes x y data) x y (data.set i b) = false) := by
  refine ⟨?_, ?_, ?_⟩
  · intro probe
    simp [api_batch2d_texturecompare]
  · simp [api_batch2d_texturecompare, readBytes_writeBytes t x y data hlen]
  · intro i b hi hb
    unfold api_batch2d_texturecompare
    rw [List.length_set, readBytes_writeBytes t x y data hlen, beq_eq_false_iff_ne]
    intro heq
    have h1 : data[i]? = (data.set i b)[i]? := by rw [← heq]
    rw [List.getElem?_set_eq_of_lt b hi, List.getElem?_eq_getElem hi] at h1
    exact hb (Option.some.inj h1).symm

/-- Texture for the C7 witness: 66×129 atlas, zero-filled, large enough
to contain pixel (64, 128). -/
def texDemo : Texture := ⟨66, 129, List.replicate 34056 0⟩

/-- Witness for C7: writing the 8-byte block [1..8] at atlas coordinate
(64, 128) of `texDemo` and comparing that block back returns true. -/
theorem texturecompare_exact_witness :
    texDemo.offset 64 128 + 8 ≤ texDemo.bytes.length ∧
    api_batch2d_texturecompare (texDemo.writeBytes 64 128 [1, 2, 3, 4, 5, 6, 7, 8])
      64 128 [1, 2, 3, 4, 5, 6, 7, 8] = true := by
  have hlen : texDemo.offset 64 128 + ([1, 2, 3, 4, 5, 6, 7, 8] : List Nat).length ≤
      texDemo.bytes.length := by
    rw [show texDemo.bytes.length = 34056 from List.length_replicate 34056 0]
    decide
  exact ⟨hlen, (texturecompare_exact texDemo 64 128 [1, 2, 3, 4, 5, 6, 7, 8] hlen).2.1⟩

/-- C8 (amended): the raw texture-data read performs no bounds check at
all — it never raises a Lua error and never aborts, for in-bounds and
out-of-bounds coordinates alike; keeping coordinates in bounds is the
caller's responsibility. -/
theorem texturedata_unchecked (t : Texture) (x y len : Nat) :
    ∃ bs, api_batch2d_texturedata t x y len = Except.ok bs :=
  ⟨t.readBytes x y len, rfl⟩

/-- Counterexample for C8 as stated: on a 2×2 atlas, reading 4 bytes at
the far out-of-bounds coordinate (100, 100) does not fail loudly or
abort — the call returns normally (with a degraded empty result). -/
theorem texturedata_oob_no_abort :
    Texture.inBounds ⟨2, 2, List.replicate 16 0⟩ 100 100 4 = false ∧
    api_batch2d_texturedata ⟨2, 2, List.replicate 16 0⟩ 100 100 4 =
      Except.ok [] := by
  exact ⟨by decide, rfl⟩

/-- C9: resizing an outbound shared-memory channel to a larger size
preserves the stored bytes up to the old size — the first old-size
bytes of the new mapping equal the old mapping's content — and the new
mapping has the requested length. -/
theorem shm_resize_preserves (shm : BoltSHM) (m new_id : Nat)
    (hlen : shm.file.length = shm.map_length) (hm : shm.map_length ≤ m) :
    (_bolt_plugin_shm_resize shm m new_id).file.take shm.map_length = shm.file ∧
    (_bolt_plugin_shm_resize shm m new_id).map_length = m ∧
    (_bolt_plugin_shm_resize shm m new_id).file.length = m := by
  have h1 : shm.file.take m = shm.file := List.take_of_length_le (by omega)
  refine ⟨?_, rfl, ?_⟩
  · show (shm.file.take m ++ List.replicate (m - shm.file.length) 0).take
      shm.map_length = shm.file
    rw [h1, ← hlen, List.take_left]
  · show (shm.file.take m ++ List.replicate (m - shm.file.length) 0).length = m
    rw [h1, List.length_append, List.length_replicate]
    omega

/-- Outbound channel for the C9 witness: opened with size 4, then the
bytes [1, 2, 3, 4] stored at offset 0. -/
def shmDemo : BoltSHM := (_bolt_plugin_shm_open_outbound 4 "sc" 1).write 0 [1, 2, 3, 4]

/-- Witness for C9: resizing `shmDemo` from 4 to 8 preserves the stored
bytes [1, 2, 3, 4] as the first 4 bytes of the new mapping. -/
theorem shm_resize_preserves_witness :
    shmDemo.file.length = shmDemo.map_length ∧
    shmDemo.map_length ≤ 8 ∧
    (_bolt_plugin_shm_resize shmDemo 8 2).file.take 4 = [1, 2, 3, 4] :=
  ⟨rfl, by decide, (shm_resize_preserves shmDemo 8 2 rfl (by decide)).1⟩

lemma createMany_ids_ge : ∀ (reqs : List (Nat × Int × Int × Int × Int))
    (wi : WindowInfo) (i : Nat), i ∈ (createMany wi reqs).2 → wi.next_id ≤ i
  | [], wi, i => by
    intro hi
    simp [createMany] at hi
  | r :: rs, wi, i => by
    intro hi
    obtain ⟨pid, x, y, w, h⟩ := r
    simp only [createMany, createWindow] at hi
    rcases List.mem_cons.mp hi with rfl | hm
    · exact le_refl _
    · have h2 : wi.next_id + 1 ≤ i := createMany_ids_ge rs _ i hm
      omega

lemma createMany_pairwise : ∀ (reqs : List (Nat × Int × Int × Int × Int))
    (wi : WindowInfo), (createMany wi reqs).2.Pairwise (· < ·)
  | [], wi => by simp [createMany]
  | r :: rs, wi => by
    obtain ⟨pid, x, y, w, h⟩ := r
    simp only [createMany, createWindow]
    rw [List.pairwise_cons]
    refine ⟨?_, createMany_pairwise rs _⟩
    intro j hj
    have h2 : wi.next_id + 1 ≤ j := createMany_ids_ge rs _ j hj
    omega

/-- C10: the ids issued by any sequence of window creations are
strictly increasing in creation order — a later-created window always
has the larger id — and therefore pairwise unique, never reused within
the run. -/
theorem window_ids_unique_increasing (wi : WindowInfo)
    (reqs : List (Nat × Int × Int × Int × Int)) :
    (createMany wi reqs).2.Pairwise (· < ·) ∧ (createMany wi reqs).2.Nodup :=
  ⟨createMany_pairwise reqs wi,
   (createMany_pairwise reqs wi).imp (fun hab => Nat.ne_of_lt hab)⟩

end Bolt
